import Mathlib

/-!
# Transaction signing commands (`x/auth/client/cli/tx_sign.go`)

A shallow embedding of the `sign` and `sign-batch` commands.  Every collaborator
that lives outside the file (keyring, account retriever, signer, encoders, file
system) is a field of `Env`; every observable call the commands make is
recorded, in order, as an `Event` of the resulting `Run`.
-/

set_option linter.unusedVariables false

namespace TxSign

/-! ## Data model -/

/-- Width of the `uint64` counters used for account numbers and sequences. -/
def uint64Size : Nat := 2 ^ 64

/-- One entry of `GetSignaturesV2`. -/
structure SignatureV2 where
  pubKey : List Nat
  data : List Nat
  sequence : Nat
  deriving DecidableEq, Repr

/-- A transaction (also standing for the `TxBuilder` wrapped around it): an
uninterpreted body and its signature slots. -/
structure Tx where
  body : String
  signatures : List SignatureV2
  deriving DecidableEq, Repr

instance : Inhabited Tx := ⟨⟨"", []⟩⟩

/-- Public keys: an ordinary key, or the composite `kmultisig.LegacyAminoPubKey`. -/
inductive PubKey where
  | single (keyType : String) (key : List Nat)
  | legacyAmino (threshold : Nat) (pubKeys : List PubKey)

/-- A keyring record; `GetPubKey` may fail. -/
structure Record where
  name : String
  pubKey : Except String PubKey

/-- Method `Record.GetPubKey`. -/
def Record.GetPubKey (r : Record) : Except String PubKey := r.pubKey

/-- The part of `tx.Factory` the commands read and write. -/
structure Factory where
  accountNumber : Nat
  sequence : Nat
  deriving DecidableEq, Repr

/-- Method `Factory.WithAccountNumber`. -/
def Factory.WithAccountNumber (f : Factory) (accnum : Nat) : Factory :=
  { f with accountNumber := accnum }

/-- Method `Factory.WithSequence`. -/
def Factory.WithSequence (f : Factory) (sequence : Nat) : Factory :=
  { f with sequence := sequence }

/-- Method `Factory.Sequence`. -/
def Factory.Sequence (f : Factory) : Nat := f.sequence

/-- Method `Factory.AccountNumber`. -/
def Factory.AccountNumber (f : Factory) : Nat := f.accountNumber

/-- The command line: the flags declared by `GetSignCommand` and
`GetSignBatchCommand`.  `accountNumber` and `sequence` are `none` when the
caller did not pass the flag.  `offline` is the `--offline` flag, which is
also what `clientCtx.Offline` holds.  All flags are declared, so reading one
never fails. -/
structure Flags where
  multisig : String
  outputDocument : String
  signatureOnly : Bool
  overwrite : Bool
  amino : Bool
  flagFrom : String
  offline : Bool
  accountNumber : Option Nat
  sequence : Option Nat
  broadcastMode : String

/-- Observable calls made by the commands, in program order. -/
inductive Event where
  | getAccount (addr : String)
  | signTx (f : Factory) (name : String) (tx : Tx) (offline overwrite : Bool)
  | signTxWithSignerAddress (f : Factory) (addr name : String) (tx : Tx)
      (offline overwrite : Bool)
  /-- The call `cmd.Printf("%s\n", doc)`. -/
  | printf (doc : String)
  | openFile (path : String)
  | write (path data : String)
  | close (path : String)
  deriving DecidableEq, Repr

/-- How a command invocation ends: it returns an error value (`none` is Go's
`nil`) or the runtime aborts it. -/
inductive Outcome where
  | ret (err : Option String)
  | aborted (msg : String)
  deriving DecidableEq, Repr

/-- A finished invocation: the calls it made and how it ended. -/
structure Run where
  events : List Event
  outcome : Outcome
  deriving DecidableEq, Repr

/-- Prepend already performed calls to the rest of a run. -/
def Run.after (evs : List Event) (r : Run) : Run :=
  ⟨evs ++ r.events, r.outcome⟩

/-- Run a deferred function (given by the calls it makes) when the body is left. -/
def Run.deferred (r : Run) (evs : List Event) : Run :=
  ⟨r.events ++ evs, r.outcome⟩

/-- The collaborators of the commands that are defined outside `tx_sign.go`. -/
structure Env where
  GetClientTxContext : Except String Unit
  /-- Method `clientCtx.GetFromName`. -/
  GetFromName : String
  /-- Function `client.GetFromFields`: address and key name for a `--from` style value. -/
  GetFromFields : String → Except String (String × String)
  /-- Method `AccountRetriever.GetAccount`: account number and sequence. -/
  GetAccount : String → Except String (Nat × Nat)
  /-- Method `Keyring.Key`. -/
  Key : String → Except String Record
  getMultisigRecord : String → Except String Record
  /-- Method `PubKey.Equals`. -/
  Equals : PubKey → PubKey → Bool
  readTxAndInitContexts : String → Except String (Factory × Tx)
  WrapTxBuilder : Tx → Except String Tx
  SignTx : Factory → String → Tx → Bool → Bool → Except String Tx
  SignTxWithSignerAddress : Factory → String → String → Tx → Bool → Bool → Except String Tx
  GetSignaturesV2 : Tx → Except String (List SignatureV2)
  MarshalSignatureJSON : List SignatureV2 → Except String String
  TxJSONEncoder : Tx → Except String String
  TxJSONDecoder : String → Except String Tx
  ConvertTxToStdTx : Tx → Except String Tx
  /-- Method `LegacyAmino.MarshalJSON` on a `BroadcastReq` of a transaction and a mode. -/
  LegacyAminoMarshalJSON : Tx → String → Except String String
  /-- Function `os.Open` on the batch file, giving its lines. -/
  Open : String → Except String (List String)
  Stdin : List String
  OpenFile : String → Except String Unit
  Write : String → String → Option String
  Close : String → Option String

/-- Modelled from the spec: `tx.NewFactoryCLI`, which is not among the source
files; the factory starts from the caller supplied account number and sequence,
0 when a flag is not given. -/
def NewFactoryCLI (flags : Flags) : Factory :=
  ⟨flags.accountNumber.getD 0, flags.sequence.getD 0⟩

/-! ## The batch scanner -/

/-- Modelled from the spec: the state of `authclient.BatchScanner`, which is not
among the source files: the unread lines, the last decoded transaction and the
decode error that stopped it, if any. -/
structure BatchScanner where
  lines : List String
  theTx : Tx
  unmarshalErr : Option String

/-- Modelled from the spec: `authclient.NewBatchScanner`. -/
def NewBatchScanner (lines : List String) : BatchScanner :=
  ⟨lines, default, none⟩

/-- Modelled from the spec: `BatchScanner.Scan` decodes the next line; it yields
`false` at end of stream and at the first decode error, which it records, and
produces nothing further after an error. -/
def BatchScanner.Scan (env : Env) (bs : BatchScanner) : Bool × BatchScanner :=
  match bs.unmarshalErr with
  | some _ => (false, bs)
  | none =>
    match bs.lines with
    | [] => (false, bs)
    | l :: rest =>
      match env.TxJSONDecoder l with
      | .ok tx => (true, ⟨rest, tx, none⟩)
      | .error e => (false, ⟨rest, bs.theTx, some e⟩)

/-- Modelled from the spec: `BatchScanner.Tx`. -/
def BatchScanner.Tx (bs : BatchScanner) : Tx := bs.theTx

/-- Modelled from the spec: `BatchScanner.UnmarshalErr`. -/
def BatchScanner.UnmarshalErr (bs : BatchScanner) : Option String := bs.unmarshalErr

/-! ## `sign-batch` -/

/-- Function `marshalSignatureJSON` (lines 363-374). -/
def marshalSignatureJSON (env : Env) (txBldr : Tx) (signatureOnly : Bool) :
    Except String String :=
  let parsedTx := txBldr
  if signatureOnly then
    match env.GetSignaturesV2 parsedTx with
    | .error e => .error e
    | .ok sigs => env.MarshalSignatureJSON sigs
  else
    env.TxJSONEncoder parsedTx

/-- Function `setOutputFile` (lines 169-183): the calls made, the calls the
returned close function makes, and the error. -/
def setOutputFile (env : Env) (flags : Flags) : List Event × List Event × Option String :=
  let outputDoc := flags.outputDocument
  if outputDoc = "" then ([], [], none)
  else
    match env.OpenFile outputDoc with
    | .error e => ([.openFile outputDoc], [], some e)
    | .ok _ => ([.openFile outputDoc], [.close outputDoc], none)

/-- Function `preSignCmd` (lines 221-228): the flags it marks required. -/
def preSignCmd (flags : Flags) : List String :=
  if flags.offline then ["account-number", "sequence"] else []

/-- Lines 97-118 of `makeSignBatchCmd`: the factory the loop starts from. -/
def resolveAccount (env : Env) (flags : Flags) (ms : String) (txFactory : Factory) :
    List Event × Except String Factory :=
  if !flags.offline then
    if ms = "" then
      match env.GetFromFields flags.flagFrom with
      | .error e => ([], .error e)
      | .ok (addr, _) =>
        match env.GetAccount addr with
        | .error e => ([.getAccount addr], .error e)
        | .ok (accnum, seq) =>
          ([.getAccount addr], .ok ((txFactory.WithAccountNumber accnum).WithSequence seq))
    else
      ([], .ok ((txFactory.WithAccountNumber 0).WithSequence 0))
  else
    ([], .ok txFactory)

/-- Lines 127-147 of `makeSignBatchCmd`: the signing step of one iteration. -/
def signBatchStep (env : Env) (flags : Flags) (ms : String) (txFactory : Factory)
    (txBuilder : Tx) : List Event × Except String Tx :=
  if ms = "" then
    match env.GetFromFields flags.flagFrom with
    | .error e => ([], .error ("error getting account from keybase: " ++ e))
    | .ok (_, fromName) =>
      ([.signTx txFactory fromName txBuilder true true],
        env.SignTx txFactory fromName txBuilder true true)
  else
    match env.GetFromFields ms with
    | .error e => ([], .error ("error getting account from keybase: " ++ e))
    | .ok (multisigAddr, _) =>
      ([.signTxWithSignerAddress txFactory multisigAddr env.GetFromName txBuilder
          flags.offline true],
        env.SignTxWithSignerAddress txFactory multisigAddr env.GetFromName txBuilder
          flags.offline true)

/-- Lines 120-165 of `makeSignBatchCmd`: the loop over the scanner and the
final `UnmarshalErr`. -/
def signBatchLoop (env : Env) (flags : Flags) (ms : String) (printSignatureOnly : Bool)
    (txFactory : Factory) (sequence : Nat) (scanner : BatchScanner) : Run :=
  match h : scanner.Scan env with
  | (false, scanner) =>
    match scanner.UnmarshalErr with
    | some e => ⟨[], .ret (some e)⟩
    | none => ⟨[], .ret scanner.UnmarshalErr⟩
  | (true, scanner) =>
    let unsignedStdTx := scanner.Tx
    let txFactory := txFactory.WithSequence sequence
    match env.WrapTxBuilder unsignedStdTx with
    | .error e => ⟨[], .ret (some e)⟩
    | .ok txBuilder =>
      match signBatchStep env flags ms txFactory txBuilder with
      | (evs, .error e) => ⟨evs, .ret (some e)⟩
      | (evs, .ok txBuilder) =>
        match marshalSignatureJSON env txBuilder printSignatureOnly with
        | .error e => ⟨evs, .ret (some e)⟩
        | .ok json =>
          Run.after (evs ++ [.printf json])
            (signBatchLoop env flags ms printSignatureOnly txFactory
              ((sequence + 1) % uint64Size) scanner)
termination_by scanner.lines.length
decreasing_by
  unfold BatchScanner.Scan at h
  split at h
  · simp at h
  · split at h
    · simp at h
    · rename_i l rest hl
      split at h
      · simp only [Prod.mk.injEq, true_and] at h
        subst h
        simp [hl]
      · simp at h

/-- Function `makeSignBatchCmd` (lines 64-167) applied to the flags and the one
positional argument. -/
def makeSignBatchCmd (env : Env) (flags : Flags) (arg0 : String) : Run :=
  match env.GetClientTxContext with
  | .error e => ⟨[], .ret (some e)⟩
  | .ok _ =>
    let txFactory := NewFactoryCLI flags
    let printSignatureOnly := flags.signatureOnly
    let ms := flags.multisig
    match setOutputFile env flags with
    | (evs, _, some e) => ⟨evs, .ret (some e)⟩
    | (evs, closeFunc, none) =>
      Run.after evs (Run.deferred
        (match (if arg0 ≠ "-" then env.Open arg0 else .ok env.Stdin) with
        | .error e => ⟨[], .ret (some e)⟩
        | .ok infile =>
          let scanner := NewBatchScanner infile
          match resolveAccount env flags ms txFactory with
          | (evs, .error e) => ⟨evs, .ret (some e)⟩
          | (evs, .ok txFactory) =>
            Run.after evs
              (signBatchLoop env flags ms printSignatureOnly txFactory txFactory.Sequence
                scanner))
        closeFunc)

/-! ## `sign` -/

/-- Lines 288-293 of `makeSignCmd`: the loop that sets `found`. -/
def membershipLoop (env : Env) (fromPubKey : PubKey) : List PubKey → Bool → Bool
  | [], found => found
  | pubkey :: rest, found =>
    membershipLoop env fromPubKey rest (if env.Equals pubkey fromPubKey then true else found)

/-- Lines 263-305 of `makeSignCmd`: the signing step, which also fixes
`printSignatureOnly`. -/
def signStep (env : Env) (flags : Flags) (txF : Factory) (fromName : String)
    (txBuilder : Tx) (printSignatureOnly : Bool) : List Event × Except Outcome (Tx × Bool) :=
  let multisig := flags.multisig
  let overwrite := flags.overwrite
  if multisig ≠ "" then
    match env.GetFromFields multisig with
    | .error e => ([], .error (.ret (some ("error getting account from keybase: " ++ e))))
    | .ok (multisigAddr, multisigName) =>
      match env.getMultisigRecord multisigName with
      | .error e => ([], .error (.ret (some e)))
      | .ok multisigkey =>
        match multisigkey.GetPubKey with
        | .error e => ([], .error (.ret (some e)))
        | .ok (.single _ _) =>
          ([], .error (.aborted "interface conversion: not *multisig.LegacyAminoPubKey"))
        | .ok (.legacyAmino _ pubKeys) =>
          match env.Key fromName with
          | .error e => ([], .error (.ret (some ("error getting account from keybase: " ++ e))))
          | .ok fromRecord =>
            match fromRecord.GetPubKey with
            | .error e => ([], .error (.ret (some e)))
            | .ok fromPubKey =>
              let found := membershipLoop env fromPubKey pubKeys false
              if !found then
                ([], .error (.ret (some "signing key is not a part of multisig key")))
              else
                let ev := Event.signTxWithSignerAddress txF multisigAddr fromName txBuilder
                  flags.offline overwrite
                match env.SignTxWithSignerAddress txF multisigAddr fromName txBuilder
                    flags.offline overwrite with
                | .error e => ([ev], .error (.ret (some e)))
                | .ok signed => ([ev], .ok (signed, true))
  else
    let ev := Event.signTx txF env.GetFromName txBuilder flags.offline overwrite
    match env.SignTx txF env.GetFromName txBuilder flags.offline overwrite with
    | .error e => ([ev], .error (.ret (some e)))
    | .ok signed => ([ev], .ok (signed, printSignatureOnly))

/-- Lines 310-339 of `makeSignCmd`: the document to output. -/
def encodeStep (env : Env) (flags : Flags) (txBuilder : Tx) (printSignatureOnly : Bool) :
    Except String String :=
  let aminoJSON := flags.amino
  let bMode := flags.broadcastMode
  if aminoJSON then
    match env.ConvertTxToStdTx txBuilder with
    | .error e => .error e
    | .ok stdTx => env.LegacyAminoMarshalJSON stdTx bMode
  else
    marshalSignatureJSON env txBuilder printSignatureOnly

/-- Lines 341-359 of `makeSignCmd`: writing the document.  The named result
`err` is assigned by the write and, at return, by the deferred close. -/
def outputStep (env : Env) (flags : Flags) (json : String) : Run :=
  let outputDoc := flags.outputDocument
  if outputDoc = "" then
    ⟨[.printf json], .ret none⟩
  else
    match env.OpenFile outputDoc with
    | .error e => ⟨[.openFile outputDoc], .ret (some e)⟩
    | .ok _ =>
      let err := env.Write outputDoc (json ++ "\n")
      let err2 := env.Close outputDoc
      let err := if err = none then err2 else err
      ⟨[.openFile outputDoc, .write outputDoc (json ++ "\n"), .close outputDoc], .ret err⟩

/-- Function `makeSignCmd` (lines 230-361) applied to the flags and the one
positional argument. -/
def makeSignCmd (env : Env) (flags : Flags) (arg0 : String) : Run :=
  match env.GetClientTxContext with
  | .error e => ⟨[], .ret (some e)⟩
  | .ok _ =>
    match env.readTxAndInitContexts arg0 with
    | .error e => ⟨[], .ret (some e)⟩
    | .ok (txF, newTx) =>
      match env.WrapTxBuilder newTx with
      | .error e => ⟨[], .ret (some e)⟩
      | .ok txBuilder =>
        let printSignatureOnly := flags.signatureOnly
        match env.GetFromFields flags.flagFrom with
        | .error e => ⟨[], .ret (some ("error getting account from keybase: " ++ e))⟩
        | .ok (_, fromName) =>
          match signStep env flags txF fromName txBuilder printSignatureOnly with
          | (evs, .error out) => ⟨evs, out⟩
          | (evs, .ok (txBuilder, printSignatureOnly)) =>
            match encodeStep env flags txBuilder printSignatureOnly with
            | .error e => ⟨evs, .ret (some e)⟩
            | .ok json => Run.after evs (outputStep env flags json)

/-! ## A concrete environment

Two ordinary keys `alice` and `carol` form the multisig key `ms`; `bob` is an
ordinary key outside it.  A line decodes unless it is `bad`; signing appends a
signature slot carrying the factory's sequence. -/

/-- Example key of `alice`. -/
def alicePub : PubKey := .single "secp256k1" [1]

/-- Example key of `bob`. -/
def bobPub : PubKey := .single "secp256k1" [2]

/-- Example key of `carol`. -/
def carolPub : PubKey := .single "secp256k1" [3]

/-- Example multisig key over `alice` and `carol`. -/
def msPub : PubKey := .legacyAmino 2 [alicePub, carolPub]

/-- Example keyring. -/
def exampleKey (name : String) : Except String Record :=
  if name = "alice" then .ok ⟨"alice", .ok alicePub⟩
  else if name = "bob" then .ok ⟨"bob", .ok bobPub⟩
  else if name = "carol" then .ok ⟨"carol", .ok carolPub⟩
  else if name = "ms" then .ok ⟨"ms", .ok msPub⟩
  else .error "key not found"

/-- Example equality of keys: ordinary keys of equal type and bytes. -/
def exampleEquals : PubKey → PubKey → Bool
  | .single t a, .single u b => decide (t = u) && decide (a = b)
  | _, _ => false

/-- Example signer: appends one signature slot stamped with the sequence. -/
def exampleSign (f : Factory) (name : String) (tx : Tx) : Except String Tx :=
  if tx.body = "unsignable" then .error "signing failed"
  else .ok ⟨tx.body, tx.signatures ++ [⟨[name.length], [f.accountNumber], f.sequence⟩]⟩

/-- Example signature-only encoder. -/
def exampleSigJSON (sigs : List SignatureV2) : Except String String :=
  .ok ("sigs:" ++ String.intercalate "," (sigs.map fun s => toString s.sequence))

/-- Example environment built from the pieces above. -/
def exampleEnv (from_ : String) (stdin : List String) : Env where
  GetClientTxContext := .ok ()
  GetFromName := from_
  GetFromFields := fun n =>
    match exampleKey n with
    | .ok r => .ok ("addr-" ++ r.name, r.name)
    | .error e => .error e
  GetAccount := fun _ => .ok (9, 40)
  Key := exampleKey
  getMultisigRecord := exampleKey
  Equals := exampleEquals
  readTxAndInitContexts := fun file => .ok (⟨0, 0⟩, ⟨file, []⟩)
  WrapTxBuilder := fun tx => .ok tx
  SignTx := fun f name tx _ _ => exampleSign f name tx
  SignTxWithSignerAddress := fun f _ name tx _ _ => exampleSign f name tx
  GetSignaturesV2 := fun tx => .ok tx.signatures
  MarshalSignatureJSON := exampleSigJSON
  TxJSONEncoder := fun tx => .ok ("tx:" ++ tx.body)
  TxJSONDecoder := fun l => if l = "bad" then .error "decode error" else .ok ⟨l, []⟩
  ConvertTxToStdTx := fun tx => .ok tx
  LegacyAminoMarshalJSON := fun tx mode => .ok ("amino:" ++ tx.body ++ ":" ++ mode)
  Open := fun _ => .error "no such file"
  Stdin := stdin
  OpenFile := fun _ => .ok ()
  Write := fun _ _ => none
  Close := fun _ => none

/-- Example command line: `--from`, `--multisig` and `--signature-only` as
given, every other flag at its default. -/
def exampleFlags (from_ ms : String) (sigOnly : Bool) : Flags where
  multisig := ms
  outputDocument := ""
  signatureOnly := sigOnly
  overwrite := false
  amino := false
  flagFrom := from_
  offline := false
  accountNumber := none
  sequence := none
  broadcastMode := "sync"

/-- Example environment whose `Close` fails. -/
def closeFailsEnv (from_ : String) : Env :=
  { exampleEnv from_ [] with Close := fun _ => some "close failed" }

/-! ## The batch loop in structural form -/

/-- The batch loop as a recursion over the unread lines of a fresh scanner;
`signBatchLoop_eq_batchRun` shows it is the loop. -/
def batchRun (env : Env) (flags : Flags) (ms : String) (printSignatureOnly : Bool) :
    Factory → Nat → List String → Run
  | _, _, [] => ⟨[], .ret none⟩
  | txFactory, sequence, l :: rest =>
    match env.TxJSONDecoder l with
    | .error e => ⟨[], .ret (some e)⟩
    | .ok tx =>
      match env.WrapTxBuilder tx with
      | .error e => ⟨[], .ret (some e)⟩
      | .ok txBuilder =>
        match signBatchStep env flags ms (txFactory.WithSequence sequence) txBuilder with
        | (evs, .error e) => ⟨evs, .ret (some e)⟩
        | (evs, .ok txBuilder) =>
          match marshalSignatureJSON env txBuilder printSignatureOnly with
          | .error e => ⟨evs, .ret (some e)⟩
          | .ok json =>
            Run.after (evs ++ [.printf json])
              (batchRun env flags ms printSignatureOnly (txFactory.WithSequence sequence)
                ((sequence + 1) % uint64Size) rest)

/-! ## Variations of a command line -/

/-- The same command line with other `--account-number` and `--sequence`. -/
def Flags.withAccount (flags : Flags) (accountNumber sequence : Option Nat) : Flags :=
  { flags with accountNumber := accountNumber, sequence := sequence }

/-- The same command line with another `--offline`. -/
def Flags.withOffline (flags : Flags) (offline : Bool) : Flags :=
  { flags with offline := offline }

/-- The same command line with another `--amino`. -/
def Flags.withAmino (flags : Flags) (amino : Bool) : Flags :=
  { flags with amino := amino }

/-- The same command line with another `--output-document`. -/
def Flags.withOutputDocument (flags : Flags) (path : String) : Flags :=
  { flags with outputDocument := path }

/-- Whether an event is a file operation (`OpenFile`, `Write`, `Close`). -/
def Event.isFile : Event → Bool
  | .openFile _ => true
  | .write _ _ => true
  | .close _ => true
  | _ => false

/-- Whether an event is a `Close`. -/
def Event.isClose : Event → Bool
  | .close _ => true
  | _ => false

/-! ## Observations on a run and the per-line view of a batch -/

/-- The documents handed to `cmd.Printf`, in order. -/
def printed : List Event → List String
  | [] => []
  | .printf d :: rest => d :: printed rest
  | _ :: rest => printed rest

/-- The factories handed to the signer (`SignTx` or `SignTxWithSignerAddress`),
in order. -/
def signerFactories : List Event → List Factory
  | [] => []
  | .signTx f _ _ _ _ :: rest => f :: signerFactories rest
  | .signTxWithSignerAddress f _ _ _ _ _ :: rest => f :: signerFactories rest
  | _ :: rest => signerFactories rest

/-- The four steps applied to one line on its own, under a given sequence:
decode, wrap, sign (with its key lookup) and encode; the record or the first
error. -/
def lineRecord (env : Env) (flags : Flags) (ms : String) (printSignatureOnly : Bool)
    (fac : Factory) (seq : Nat) (line : String) : Except String String :=
  match env.TxJSONDecoder line with
  | .error e => .error e
  | .ok tx =>
    match env.WrapTxBuilder tx with
    | .error e => .error e
    | .ok txBuilder =>
      match (signBatchStep env flags ms (fac.WithSequence seq) txBuilder).2 with
      | .error e => .error e
      | .ok signed => marshalSignatureJSON env signed printSignatureOnly

/-- The result of every line of the input taken on its own, the sequence
advancing by one per line. -/
def lineResults (env : Env) (flags : Flags) (ms : String) (printSignatureOnly : Bool)
    (fac : Factory) : Nat → List String → List (Except String String)
  | _, [] => []
  | seq, l :: rest =>
    lineRecord env flags ms printSignatureOnly fac seq l ::
      lineResults env flags ms printSignatureOnly fac ((seq + 1) % uint64Size) rest

/-- Index of the first failing entry, the length when none fails. -/
def firstFailure : List (Except String String) → Nat
  | [] => 0
  | .error _ :: _ => 0
  | .ok _ :: rest => firstFailure rest + 1

/-- The error a batch ends with, given the per-line results: that of the
first failing line, none when no line fails. -/
def firstError : List (Except String String) → Option String
  | [] => none
  | .error e :: _ => some e
  | .ok _ :: rest => firstError rest

/-- One unfolding of the loop, with the termination evidence dropped. -/
theorem signBatchLoop_unfold (env : Env) (flags : Flags) (ms : String) (pso : Bool)
    (fac : Factory) (seq : Nat) (sc : BatchScanner) :
    signBatchLoop env flags ms pso fac seq sc =
      match sc.Scan env with
      | (false, sc2) => ⟨[], .ret sc2.UnmarshalErr⟩
      | (true, sc2) =>
        match env.WrapTxBuilder sc2.Tx with
        | .error e => ⟨[], .ret (some e)⟩
        | .ok txBuilder =>
          match signBatchStep env flags ms (fac.WithSequence seq) txBuilder with
          | (evs, .error e) => ⟨evs, .ret (some e)⟩
          | (evs, .ok signed) =>
            match marshalSignatureJSON env signed pso with
            | .error e => ⟨evs, .ret (some e)⟩
            | .ok json =>
              Run.after (evs ++ [.printf json])
                (signBatchLoop env flags ms pso (fac.WithSequence seq)
                  ((seq + 1) % uint64Size) sc2) := by
  rw [signBatchLoop]
  split
  · rename_i sc2 h
    rw [h]
    simp only []
    cases hu : sc2.UnmarshalErr <;> simp
  · rename_i sc2 h
    rw [h]

theorem signBatchLoop_eq_batchRun (env : Env) (flags : Flags) (ms : String) (pso : Bool)
    (lines : List String) :
    ∀ (tx0 : Tx) (fac : Factory) (seq : Nat),
      signBatchLoop env flags ms pso fac seq ⟨lines, tx0, none⟩ =
        batchRun env flags ms pso fac seq lines := by
  induction lines with
  | nil =>
    intro tx0 fac seq
    rw [signBatchLoop_unfold]
    simp [BatchScanner.Scan, BatchScanner.UnmarshalErr, batchRun]
  | cons l rest ih =>
    intro tx0 fac seq
    rw [signBatchLoop_unfold, batchRun]
    cases hd : env.TxJSONDecoder l with
    | error e => simp [BatchScanner.Scan, hd, BatchScanner.UnmarshalErr]
    | ok tx =>
      simp only [BatchScanner.Scan, hd, BatchScanner.Tx]
      cases hw : env.WrapTxBuilder tx with
      | error e => simp
      | ok b =>
        simp only []
        rcases hs : signBatchStep env flags ms (fac.WithSequence seq) b with ⟨evs, r⟩
        cases r with
        | error e => simp
        | ok signed =>
          simp only []
          cases hm : marshalSignatureJSON env signed pso with
          | error e => simp
          | ok json => simp [ih]

@[simp]
theorem Factory.WithSequence_WithSequence (f : Factory) (a b : Nat) :
    (f.WithSequence a).WithSequence b = f.WithSequence b := rfl

@[simp]
theorem printed_append (xs ys : List Event) :
    printed (xs ++ ys) = printed xs ++ printed ys := by
  induction xs with
  | nil => rfl
  | cons x xs ih => cases x <;> simp [printed, ih]

@[simp]
theorem signerFactories_append (xs ys : List Event) :
    signerFactories (xs ++ ys) = signerFactories xs ++ signerFactories ys := by
  induction xs with
  | nil => rfl
  | cons x xs ih => cases x <;> simp [signerFactories, ih]

/-- The signing step of an iteration prints nothing. -/
theorem printed_signBatchStep (env : Env) (flags : Flags) (ms : String) (fac : Factory)
    (b : Tx) : printed (signBatchStep env flags ms fac b).1 = [] := by
  unfold signBatchStep
  split
  · split <;> simp [printed]
  · split <;> simp [printed]

theorem lineResults_WithSequence (env : Env) (flags : Flags) (ms : String) (pso : Bool)
    (fac : Factory) (s : Nat) (lines : List String) :
    ∀ seq, lineResults env flags ms pso (fac.WithSequence s) seq lines =
      lineResults env flags ms pso fac seq lines := by
  induction lines with
  | nil => intro seq; rfl
  | cons l rest ih => intro seq; simp [lineResults, lineRecord, ih]

theorem lineResults_length (env : Env) (flags : Flags) (ms : String) (pso : Bool)
    (fac : Factory) (lines : List String) :
    ∀ seq, (lineResults env flags ms pso fac seq lines).length = lines.length := by
  induction lines with
  | nil => intro seq; rfl
  | cons l rest ih => intro seq; simp [lineResults, ih]

theorem firstFailure_le (rs : List (Except String String)) : firstFailure rs ≤ rs.length := by
  induction rs with
  | nil => simp [firstFailure]
  | cons r rs ih => cases r <;> simp [firstFailure, ih]

theorem firstError_eq_none_iff (rs : List (Except String String)) :
    firstError rs = none ↔ firstFailure rs = rs.length := by
  induction rs with
  | nil => simp [firstError, firstFailure]
  | cons r rs ih => cases r <;> simp [firstError, firstFailure, ih]

/-- The loop in structural form against the per-line results: what is printed
and how it ends. -/
theorem batchRun_spec (env : Env) (flags : Flags) (ms : String) (pso : Bool)
    (lines : List String) :
    ∀ (fac : Factory) (seq : Nat),
      (printed (batchRun env flags ms pso fac seq lines).events).map Except.ok =
          (lineResults env flags ms pso fac seq lines).take
            (firstFailure (lineResults env flags ms pso fac seq lines)) ∧
        (batchRun env flags ms pso fac seq lines).outcome =
          .ret (firstError (lineResults env flags ms pso fac seq lines)) := by
  induction lines with
  | nil => intro fac seq; simp [batchRun, lineResults, firstFailure, firstError, printed]
  | cons l rest ih =>
    intro fac seq
    have hp := printed_signBatchStep env flags ms (fac.WithSequence seq)
    rw [batchRun]
    simp only [lineResults, lineRecord]
    cases hd : env.TxJSONDecoder l with
    | error e => simp [firstFailure, firstError, printed]
    | ok tx =>
      simp only []
      cases hw : env.WrapTxBuilder tx with
      | error e => simp [firstFailure, firstError, printed]
      | ok b =>
        simp only []
        specialize hp b
        rcases hs : signBatchStep env flags ms (fac.WithSequence seq) b with ⟨evs, r⟩
        rw [hs] at hp
        simp only [] at hp
        cases r with
        | error e => simp [firstFailure, firstError, hp]
        | ok signed =>
          simp only []
          cases hm : marshalSignatureJSON env signed pso with
          | error e => simp [firstFailure, firstError, hp]
          | ok json =>
            have h := ih (fac.WithSequence seq) ((seq + 1) % uint64Size)
            rw [lineResults_WithSequence] at h
            simp [firstFailure, firstError, hp, Run.after, printed, h.1, h.2]

/-- Lines after the first failing one have no effect on the loop. -/
theorem batchRun_tail_irrelevant (env : Env) (flags : Flags) (ms : String) (pso : Bool)
    (lines : List String) :
    ∀ (fac : Factory) (seq : Nat) (tail : List String),
      firstFailure (lineResults env flags ms pso fac seq lines) < lines.length →
      batchRun env flags ms pso fac seq
          (lines.take (firstFailure (lineResults env flags ms pso fac seq lines) + 1) ++ tail) =
        batchRun env flags ms pso fac seq lines := by
  induction lines with
  | nil => intro fac seq tail h; simp at h
  | cons l rest ih =>
    intro fac seq tail
    simp only [lineResults, lineRecord]
    cases hd : env.TxJSONDecoder l with
    | error e => intro _; simp [firstFailure, batchRun, hd]
    | ok tx =>
      simp only []
      cases hw : env.WrapTxBuilder tx with
      | error e => intro _; simp [firstFailure, batchRun, hd, hw]
      | ok b =>
        simp only []
        rcases hs : signBatchStep env flags ms (fac.WithSequence seq) b with ⟨evs, r⟩
        cases r with
        | error e => intro _; simp [firstFailure, batchRun, hd, hw, hs]
        | ok signed =>
          simp only []
          cases hm : marshalSignatureJSON env signed pso with
          | error e => intro _; simp [firstFailure, batchRun, hd, hw, hs, hm]
          | ok json =>
            intro h
            simp only [firstFailure, List.length_cons, Nat.add_lt_add_iff_right] at h
            have h2 := ih (fac.WithSequence seq) ((seq + 1) % uint64Size) tail
            rw [lineResults_WithSequence] at h2
            simp [firstFailure, batchRun, hd, hw, hs, hm, h2 h]

/-- A successful signing step hands exactly the given factory to the signer. -/
theorem signerFactories_signBatchStep (env : Env) (flags : Flags) (ms : String)
    (fac : Factory) (b signed : Tx) (evs : List Event)
    (h : signBatchStep env flags ms fac b = (evs, .ok signed)) :
    signerFactories evs = [fac] := by
  unfold signBatchStep at h
  split at h
  · split at h
    · simp at h
    · simp only [Prod.mk.injEq] at h
      rw [← h.1]; rfl
  · split at h
    · simp at h
    · simp only [Prod.mk.injEq] at h
      rw [← h.1]; rfl

/-- When no line fails, the signer sees the starting account number and the
sequences `seq, seq+1, ...`. -/
theorem batchRun_signerFactories (env : Env) (flags : Flags) (ms : String) (pso : Bool)
    (lines : List String) :
    ∀ (fac : Factory) (seq : Nat),
      (∀ r ∈ lineResults env flags ms pso fac seq lines, r.isOk = true) →
      seq + lines.length ≤ uint64Size →
      signerFactories (batchRun env flags ms pso fac seq lines).events =
        (List.range lines.length).map (fun i => ⟨fac.accountNumber, seq + i⟩) := by
  induction lines with
  | nil => intro fac seq _ _; simp [batchRun, signerFactories]
  | cons l rest ih =>
    intro fac seq hall hbound
    simp only [lineResults, lineRecord, List.mem_cons, forall_eq_or_imp] at hall
    obtain ⟨h0, hrest⟩ := hall
    rw [batchRun]
    cases hd : env.TxJSONDecoder l with
    | error e => simp [hd, Except.isOk, Except.toBool] at h0
    | ok tx =>
      simp only [hd] at h0
      simp only []
      cases hw : env.WrapTxBuilder tx with
      | error e => simp [hw, Except.isOk, Except.toBool] at h0
      | ok b =>
        simp only [hw] at h0
        simp only []
        rcases hs : signBatchStep env flags ms (fac.WithSequence seq) b with ⟨evs, r⟩
        rw [hs] at h0
        cases r with
        | error e => simp [Except.isOk, Except.toBool] at h0
        | ok signed =>
          simp only [] at h0
          simp only []
          cases hm : marshalSignatureJSON env signed pso with
          | error e => simp [hm, Except.isOk, Except.toBool] at h0
          | ok json =>
            have hf := signerFactories_signBatchStep env flags ms _ b signed evs hs
            simp only [Run.after, signerFactories_append, hf, signerFactories,
              List.length_cons, List.range_succ_eq_map, List.map_cons, List.map_map]
            cases rest with
            | nil => simp [batchRun, signerFactories, Factory.WithSequence]
            | cons l2 rest2 =>
              have hlt : seq + 1 < uint64Size := by
                simp only [List.length_cons] at hbound; omega
              have hmod : (seq + 1) % uint64Size = seq + 1 := Nat.mod_eq_of_lt hlt
              rw [hmod] at hrest ⊢
              have h2 := ih (fac.WithSequence seq) (seq + 1)
                (by rw [lineResults_WithSequence]; exact hrest)
                (by simp only [List.length_cons] at hbound ⊢; omega)
              rw [h2]
              simp [Factory.WithSequence, Function.comp_def, Nat.add_assoc, Nat.add_comm 1]

/-! ## Claims on `sign-batch` -/

/-- C1: in the `sign-batch` loop started from a factory with account number `a0`
and sequence `s0`, on `N` lines that are all decoded, wrapped, signed and
encoded successfully and with `s0 + N` within the `uint64` range, the signer is
called exactly `N` times and the factory of its `i`-th call carries account
number `a0` and sequence `s0 + i`. -/
theorem signBatch_sequence_monotone (env : Env) (flags : Flags) (ms : String)
    (printSignatureOnly : Bool) (txFactory : Factory) (lines : List String)
    (hok : ∀ r ∈ lineResults env flags ms printSignatureOnly txFactory txFactory.Sequence lines,
      r.isOk = true)
    (hrange : txFactory.Sequence + lines.length ≤ uint64Size) :
    (signerFactories (signBatchLoop env flags ms printSignatureOnly txFactory
        txFactory.Sequence (NewBatchScanner lines)).events).length = lines.length ∧
      ∀ i, i < lines.length →
        (signerFactories (signBatchLoop env flags ms printSignatureOnly txFactory
          txFactory.Sequence (NewBatchScanner lines)).events)[i]? =
          some ⟨txFactory.AccountNumber, txFactory.Sequence + i⟩ := by
  unfold NewBatchScanner
  rw [signBatchLoop_eq_batchRun,
    batchRun_signerFactories env flags ms printSignatureOnly lines txFactory _ hok hrange]
  refine ⟨by simp, ?_⟩
  intro i hi
  simp [List.getElem?_map, List.getElem?_range hi, Factory.AccountNumber]

/-- C1 at a concrete batch: three lines signed by `alice` from account 9,
sequence 40. -/
theorem signBatch_sequence_monotone_witness :
    (signerFactories (signBatchLoop (exampleEnv "alice" []) (exampleFlags "alice" "" false) "" false
        ⟨9, 40⟩ 40 (NewBatchScanner ["a", "b", "c"])).events).length = 3 ∧
      ∀ i, i < 3 →
        (signerFactories (signBatchLoop (exampleEnv "alice" []) (exampleFlags "alice" "" false) "" false
          ⟨9, 40⟩ 40 (NewBatchScanner ["a", "b", "c"])).events)[i]? = some ⟨9, 40 + i⟩ :=
  signBatch_sequence_monotone (exampleEnv "alice" []) (exampleFlags "alice" "" false) "" false
    ⟨9, 40⟩
    ["a", "b", "c"] (by decide) (by decide)

/-- C6: with `k` the index of the first line whose decoding, wrapping, signing or
encoding fails (the number of lines when none fails), the `sign-batch` loop
prints exactly `k` records, the `j`-th being the encoding of the signed `j`-th
line; lines after the `k`-th have no effect on the run; the command returns the
error of line `k`, and returns nil exactly when no line fails.  For lines
`[valid, valid, malformed, valid]` two records are printed and the decode error
is returned. -/
theorem signBatch_halts_at_first_failure (env : Env) (flags : Flags) (ms : String)
    (printSignatureOnly : Bool) (txFactory : Factory) (sequence : Nat) (lines : List String) :
    (printed (signBatchLoop env flags ms printSignatureOnly txFactory sequence
        (NewBatchScanner lines)).events).length =
        firstFailure (lineResults env flags ms printSignatureOnly txFactory sequence lines) ∧
      (printed (signBatchLoop env flags ms printSignatureOnly txFactory sequence
        (NewBatchScanner lines)).events).map Except.ok =
        (lineResults env flags ms printSignatureOnly txFactory sequence lines).take
          (firstFailure (lineResults env flags ms printSignatureOnly txFactory sequence lines)) ∧
      (∀ tail : List String,
        firstFailure (lineResults env flags ms printSignatureOnly txFactory sequence lines)
            < lines.length →
          signBatchLoop env flags ms printSignatureOnly txFactory sequence
            (NewBatchScanner (lines.take (firstFailure
              (lineResults env flags ms printSignatureOnly txFactory sequence lines) + 1) ++ tail)) =
          signBatchLoop env flags ms printSignatureOnly txFactory sequence
            (NewBatchScanner lines)) ∧
      (signBatchLoop env flags ms printSignatureOnly txFactory sequence
        (NewBatchScanner lines)).outcome =
        .ret (firstError (lineResults env flags ms printSignatureOnly txFactory sequence lines)) ∧
      ((signBatchLoop env flags ms printSignatureOnly txFactory sequence
          (NewBatchScanner lines)).outcome = .ret none ↔
        firstFailure (lineResults env flags ms printSignatureOnly txFactory sequence lines) =
          lines.length) ∧
      (∀ (v1 v2 bad v3 d1 d2 e : String), lines = [v1, v2, bad, v3] →
        lineRecord env flags ms printSignatureOnly txFactory sequence v1 = .ok d1 →
        lineRecord env flags ms printSignatureOnly txFactory ((sequence + 1) % uint64Size) v2
          = .ok d2 →
        env.TxJSONDecoder bad = .error e →
        printed (signBatchLoop env flags ms printSignatureOnly txFactory sequence
          (NewBatchScanner lines)).events = [d1, d2] ∧
        (signBatchLoop env flags ms printSignatureOnly txFactory sequence
          (NewBatchScanner lines)).outcome = .ret (some e)) := by
  have hspec := batchRun_spec env flags ms printSignatureOnly lines txFactory sequence
  have hlen := lineResults_length env flags ms printSignatureOnly txFactory lines sequence
  have hle := firstFailure_le
    (lineResults env flags ms printSignatureOnly txFactory sequence lines)
  have hiff := firstError_eq_none_iff
    (lineResults env flags ms printSignatureOnly txFactory sequence lines)
  unfold NewBatchScanner
  simp only [signBatchLoop_eq_batchRun]
  refine ⟨?_, hspec.1, ?_, hspec.2, ?_, ?_⟩
  · have h := congrArg List.length hspec.1
    simp only [List.length_map, List.length_take] at h
    omega
  · intro tail h
    exact batchRun_tail_irrelevant env flags ms printSignatureOnly lines txFactory sequence
      tail h
  · rw [hspec.2, ← hlen, ← hiff]
    simp
  · intro v1 v2 bad v3 d1 d2 e hl h1 h2 hbad
    subst hl
    have h3 : lineRecord env flags ms printSignatureOnly txFactory
        ((((sequence + 1) % uint64Size) + 1) % uint64Size) bad = .error e := by
      simp [lineRecord, hbad]
    obtain ⟨hp, ho⟩ := hspec
    simp only [lineResults, h1, h2, h3, firstFailure, firstError] at hp ho
    refine ⟨?_, ho⟩
    have hinj : Function.Injective (Except.ok : String → Except String String) :=
      fun a b hab => by injection hab
    apply hinj.list_map
    simpa using hp

/-- C6 at the concrete batch `[a, b, bad, c]`: two records, then the decode
error. -/
theorem signBatch_halts_at_first_failure_witness :
    printed (signBatchLoop (exampleEnv "alice" []) (exampleFlags "alice" "" false) "" false
        ⟨9, 40⟩ 40 (NewBatchScanner ["a", "b", "bad", "c"])).events = ["tx:a", "tx:b"] ∧
      (signBatchLoop (exampleEnv "alice" []) (exampleFlags "alice" "" false) "" false
        ⟨9, 40⟩ 40 (NewBatchScanner ["a", "b", "bad", "c"])).outcome =
        .ret (some "decode error") :=
  (signBatch_halts_at_first_failure (exampleEnv "alice" []) (exampleFlags "alice" "" false) "" false
    ⟨9, 40⟩ 40 ["a", "b", "bad", "c"]).2.2.2.2.2 "a" "b" "bad" "c" "tx:a" "tx:b" "decode error"
    rfl rfl rfl rfl

/-- The whole command with the loop in structural form. -/
theorem makeSignBatchCmd_eq (env : Env) (flags : Flags) (arg0 : String) :
    makeSignBatchCmd env flags arg0 =
      match env.GetClientTxContext with
      | .error e => ⟨[], .ret (some e)⟩
      | .ok _ =>
        match setOutputFile env flags with
        | (evs, _, some e) => ⟨evs, .ret (some e)⟩
        | (evs, closeFunc, none) =>
          Run.after evs (Run.deferred
            (match (if arg0 ≠ "-" then env.Open arg0 else .ok env.Stdin) with
            | .error e => ⟨[], .ret (some e)⟩
            | .ok infile =>
              match resolveAccount env flags flags.multisig (NewFactoryCLI flags) with
              | (evs, .error e) => ⟨evs, .ret (some e)⟩
              | (evs, .ok txFactory) =>
                Run.after evs
                  (batchRun env flags flags.multisig flags.signatureOnly txFactory
                    txFactory.Sequence infile))
            closeFunc) := by
  unfold makeSignBatchCmd NewBatchScanner
  simp only [signBatchLoop_eq_batchRun]

/-- C2, the code at the failing input: `bob` is not a member of the multisig key
`ms` (the membership loop of the `sign` command yields false on the members),
and `sign-batch --from bob --multisig ms` on the one-line batch `[a]` calls
`SignTxWithSignerAddress` for `bob`, prints the resulting record and returns
nil. -/
theorem signBatch_multisig_nonmember_is_signed :
    membershipLoop (exampleEnv "bob" ["a"]) bobPub [alicePub, carolPub] false = false ∧
      makeSignBatchCmd (exampleEnv "bob" ["a"]) (exampleFlags "bob" "ms" true) "-" =
        ⟨[.signTxWithSignerAddress ⟨0, 0⟩ "addr-ms" "bob" ⟨"a", []⟩ false true,
          .printf "sigs:0"], .ret none⟩ := by
  refine ⟨by decide, ?_⟩
  rw [makeSignBatchCmd_eq]
  decide

/-- C4, the code at the failing input: `sign-batch --from alice --multisig ms
--signature-only=false` on the one-line batch `[a]` prints the complete
transaction document `tx:a`, not the signature-only document `sigs:0` of the
signed transaction. -/
theorem signBatch_multisig_prints_full_tx :
    makeSignBatchCmd (exampleEnv "alice" ["a"]) (exampleFlags "alice" "ms" false) "-" =
        ⟨[.signTxWithSignerAddress ⟨0, 0⟩ "addr-ms" "alice" ⟨"a", []⟩ false true,
          .printf "tx:a"], .ret none⟩ ∧
      marshalSignatureJSON (exampleEnv "alice" ["a"]) ⟨"a", [⟨[5], [0], 0⟩]⟩ true
        = .ok "sigs:0" ∧
      (exampleEnv "alice" ["a"]).SignTxWithSignerAddress ⟨0, 0⟩ "addr-ms" "alice" ⟨"a", []⟩
        false true = .ok ⟨"a", [⟨[5], [0], 0⟩]⟩ := by
  refine ⟨?_, rfl, rfl⟩
  rw [makeSignBatchCmd_eq]
  decide

/-! ## Claims on `sign` -/

/-- The membership loop ends with `found` set exactly when it was set before or
some member equals the signing key. -/
theorem membershipLoop_eq_true_iff (env : Env) (fromPubKey : PubKey) (pubKeys : List PubKey) :
    ∀ found, membershipLoop env fromPubKey pubKeys found = true ↔
      found = true ∨ ∃ m ∈ pubKeys, env.Equals m fromPubKey = true := by
  induction pubKeys with
  | nil => intro found; simp [membershipLoop]
  | cons k rest ih =>
    intro found
    rw [membershipLoop, ih]
    by_cases hk : env.Equals k fromPubKey = true
    · simp [hk]
    · simp [hk]

/-- The `sign` command once the context, the transaction and the `--from` key
are resolved. -/
theorem makeSignCmd_of_setup (env : Env) (flags : Flags) (arg0 : String) (txF : Factory)
    (newTx txBuilder : Tx) (addr fromName : String)
    (hctx : env.GetClientTxContext = .ok ())
    (hread : env.readTxAndInitContexts arg0 = .ok (txF, newTx))
    (hwrap : env.WrapTxBuilder newTx = .ok txBuilder)
    (hfrom : env.GetFromFields flags.flagFrom = .ok (addr, fromName)) :
    makeSignCmd env flags arg0 =
      match signStep env flags txF fromName txBuilder flags.signatureOnly with
      | (evs, .error out) => ⟨evs, out⟩
      | (evs, .ok (signed, printSignatureOnly)) =>
        match encodeStep env flags signed printSignatureOnly with
        | .error e => ⟨evs, .ret (some e)⟩
        | .ok json => Run.after evs (outputStep env flags json) := by
  unfold makeSignCmd
  simp only [hctx, hread, hwrap, hfrom]

/-- The signing step of `sign` once the multisig key and the signing key are
resolved. -/
theorem signStep_multisig (env : Env) (flags : Flags) (txF : Factory) (fromName : String)
    (txBuilder : Tx) (pso : Bool) (multisigAddr multisigName : String) (multisigkey : Record)
    (threshold : Nat) (pubKeys : List PubKey) (fromRecord : Record) (fromPubKey : PubKey)
    (hms : flags.multisig ≠ "")
    (hmsf : env.GetFromFields flags.multisig = .ok (multisigAddr, multisigName))
    (hrec : env.getMultisigRecord multisigName = .ok multisigkey)
    (hpk : multisigkey.GetPubKey = .ok (.legacyAmino threshold pubKeys))
    (hkey : env.Key fromName = .ok fromRecord)
    (hfpk : fromRecord.GetPubKey = .ok fromPubKey) :
    signStep env flags txF fromName txBuilder pso =
      if membershipLoop env fromPubKey pubKeys false = true then
        match env.SignTxWithSignerAddress txF multisigAddr fromName txBuilder
            flags.offline flags.overwrite with
        | .error e =>
          ([.signTxWithSignerAddress txF multisigAddr fromName txBuilder flags.offline
            flags.overwrite], .error (.ret (some e)))
        | .ok signed =>
          ([.signTxWithSignerAddress txF multisigAddr fromName txBuilder flags.offline
            flags.overwrite], .ok (signed, true))
      else ([], .error (.ret (some "signing key is not a part of multisig key"))) := by
  unfold signStep
  simp only [hms, hmsf, hrec, hpk, hkey, hfpk, ne_eq, not_false_eq_true, if_true]
  by_cases hm : membershipLoop env fromPubKey pubKeys false = true
  · simp [hm]
  · simp [hm]

/-- C3: in the `sign` command with a multisig target, once the multisig key
(members `pubKeys`) and the signing key are resolved, the membership check
passes exactly when some member equals the signing key, whatever the order of
the members; when no member equals it the command returns the error
"signing key is not a part of multisig key" having made no call at all (no
signer call, nothing written); when some member equals it the first call made
is the signer. -/
theorem sign_multisig_membership (env : Env) (flags : Flags) (arg0 : String) (txF : Factory)
    (newTx txBuilder : Tx) (addr fromName multisigAddr multisigName : String)
    (multisigkey : Record) (threshold : Nat) (pubKeys : List PubKey) (fromRecord : Record)
    (fromPubKey : PubKey)
    (hms : flags.multisig ≠ "")
    (hctx : env.GetClientTxContext = .ok ())
    (hread : env.readTxAndInitContexts arg0 = .ok (txF, newTx))
    (hwrap : env.WrapTxBuilder newTx = .ok txBuilder)
    (hfrom : env.GetFromFields flags.flagFrom = .ok (addr, fromName))
    (hmsf : env.GetFromFields flags.multisig = .ok (multisigAddr, multisigName))
    (hrec : env.getMultisigRecord multisigName = .ok multisigkey)
    (hpk : multisigkey.GetPubKey = .ok (.legacyAmino threshold pubKeys))
    (hkey : env.Key fromName = .ok fromRecord)
    (hfpk : fromRecord.GetPubKey = .ok fromPubKey) :
    (membershipLoop env fromPubKey pubKeys false = true ↔
        ∃ m ∈ pubKeys, env.Equals m fromPubKey = true) ∧
      (∀ other : List PubKey, other.Perm pubKeys →
        membershipLoop env fromPubKey other false =
          membershipLoop env fromPubKey pubKeys false) ∧
      ((∀ m ∈ pubKeys, env.Equals m fromPubKey = false) →
        makeSignCmd env flags arg0 =
          ⟨[], .ret (some "signing key is not a part of multisig key")⟩) ∧
      ((∃ m ∈ pubKeys, env.Equals m fromPubKey = true) →
        ∃ rest, (makeSignCmd env flags arg0).events =
          .signTxWithSignerAddress txF multisigAddr fromName txBuilder flags.offline
            flags.overwrite :: rest) := by
  have hiff := membershipLoop_eq_true_iff env fromPubKey
  have hcmd := makeSignCmd_of_setup env flags arg0 txF newTx txBuilder addr fromName
    hctx hread hwrap hfrom
  rw [signStep_multisig env flags txF fromName txBuilder flags.signatureOnly multisigAddr
    multisigName multisigkey threshold pubKeys fromRecord fromPubKey hms hmsf hrec hpk hkey
    hfpk] at hcmd
  refine ⟨by simpa using hiff pubKeys false, ?_, ?_, ?_⟩
  · intro other hperm
    have h1 := hiff other false
    have h2 := hiff pubKeys false
    have h3 : (∃ m ∈ other, env.Equals m fromPubKey = true) ↔
        ∃ m ∈ pubKeys, env.Equals m fromPubKey = true := by
      constructor
      · rintro ⟨m, hm, he⟩; exact ⟨m, hperm.mem_iff.mp hm, he⟩
      · rintro ⟨m, hm, he⟩; exact ⟨m, hperm.mem_iff.mpr hm, he⟩
    rw [Bool.eq_iff_iff, h1, h2, h3]
  · intro hnone
    have hf : ¬ membershipLoop env fromPubKey pubKeys false = true := by
      rw [hiff]
      rintro (h | ⟨m, hm, he⟩)
      · exact Bool.noConfusion h
      · rw [hnone m hm] at he; exact Bool.noConfusion he
    rw [hcmd]
    simp [hf]
  · intro hsome
    have ht : membershipLoop env fromPubKey pubKeys false = true := (hiff pubKeys false).mpr
      (Or.inr hsome)
    rw [hcmd]
    simp only [ht, if_true]
    cases hs : env.SignTxWithSignerAddress txF multisigAddr fromName txBuilder flags.offline
      flags.overwrite with
    | error e => exact ⟨[], rfl⟩
    | ok signed =>
      simp only []
      cases he : encodeStep env flags signed true with
      | error e => exact ⟨[], rfl⟩
      | ok json => exact ⟨(outputStep env flags json).events, rfl⟩

/-- C3 at a concrete input: `bob` signing for the multisig key of `alice` and
`carol` is rejected before any call is made. -/
theorem sign_multisig_membership_witness :
    makeSignCmd (exampleEnv "bob" []) (exampleFlags "bob" "ms" false) "f" =
      ⟨[], .ret (some "signing key is not a part of multisig key")⟩ :=
  (sign_multisig_membership (exampleEnv "bob" []) (exampleFlags "bob" "ms" false) "f" ⟨0, 0⟩
    ⟨"f", []⟩ ⟨"f", []⟩ "addr-bob" "bob" "addr-ms" "ms" ⟨"ms", .ok msPub⟩ 2
    [alicePub, carolPub] ⟨"bob", .ok bobPub⟩ bobPub (by decide) rfl rfl rfl rfl rfl rfl rfl
    rfl rfl).2.2.1 (by decide)

/-- C10, the code at the failing input: `sign --from alice --multisig bob`,
where the keyring holds the ordinary key `bob`, is aborted at the type
assertion of line 277; it neither returns an error nor reaches the membership
check. -/
theorem sign_multisig_ordinary_key_aborts :
    (exampleEnv "alice" []).getMultisigRecord "bob" = .ok ⟨"bob", .ok (.single "secp256k1" [2])⟩ ∧
      makeSignCmd (exampleEnv "alice" []) (exampleFlags "alice" "bob" false) "f" =
        ⟨[], .aborted "interface conversion: not *multisig.LegacyAminoPubKey"⟩ := by
  exact ⟨rfl, by decide⟩

/-- C5, counterexample to the claim as stated: `sign --from alice --multisig ms
--amino`, with `alice` a member and the signer succeeding, prints the amino
document of the complete transaction, `amino:f:sync`, while the signature-only
document of the signed transaction is `sigs:0`. -/
theorem sign_multisig_amino_counterexample :
    makeSignCmd (exampleEnv "alice" []) ((exampleFlags "alice" "ms" false).withAmino true) "f" =
        ⟨[.signTxWithSignerAddress ⟨0, 0⟩ "addr-ms" "alice" ⟨"f", []⟩ false false,
          .printf "amino:f:sync"], .ret none⟩ ∧
      membershipLoop (exampleEnv "alice" []) alicePub [alicePub, carolPub] false = true ∧
      (exampleEnv "alice" []).SignTxWithSignerAddress ⟨0, 0⟩ "addr-ms" "alice" ⟨"f", []⟩
        false false = .ok ⟨"f", [⟨[5], [0], 0⟩]⟩ ∧
      marshalSignatureJSON (exampleEnv "alice" []) ⟨"f", [⟨[5], [0], 0⟩]⟩ true
        = .ok "sigs:0" := by
  exact ⟨by decide, by decide, rfl, rfl⟩

/-- C5 as amended: in the `sign` command with a multisig target, the signing key
a member, the signer succeeding and `--amino` not set, the document handed to
the output is `MarshalSignatureJSON` of the signatures of the signed
transaction, for every value of `--signature-only` and `--overwrite`; the
encoder of complete transactions is not consulted. -/
theorem sign_multisig_signature_only (env : Env) (flags : Flags) (arg0 : String)
    (txF : Factory) (newTx txBuilder signed : Tx)
    (addr fromName multisigAddr multisigName : String)
    (multisigkey : Record) (threshold : Nat) (pubKeys : List PubKey) (fromRecord : Record)
    (fromPubKey : PubKey)
    (hms : flags.multisig ≠ "")
    (hamino : flags.amino = false)
    (hctx : env.GetClientTxContext = .ok ())
    (hread : env.readTxAndInitContexts arg0 = .ok (txF, newTx))
    (hwrap : env.WrapTxBuilder newTx = .ok txBuilder)
    (hfrom : env.GetFromFields flags.flagFrom = .ok (addr, fromName))
    (hmsf : env.GetFromFields flags.multisig = .ok (multisigAddr, multisigName))
    (hrec : env.getMultisigRecord multisigName = .ok multisigkey)
    (hpk : multisigkey.GetPubKey = .ok (.legacyAmino threshold pubKeys))
    (hkey : env.Key fromName = .ok fromRecord)
    (hfpk : fromRecord.GetPubKey = .ok fromPubKey)
    (hmem : ∃ m ∈ pubKeys, env.Equals m fromPubKey = true)
    (hsign : env.SignTxWithSignerAddress txF multisigAddr fromName txBuilder flags.offline
      flags.overwrite = .ok signed) :
    makeSignCmd env flags arg0 =
      match env.GetSignaturesV2 signed with
      | .error e =>
        ⟨[.signTxWithSignerAddress txF multisigAddr fromName txBuilder flags.offline
          flags.overwrite], .ret (some e)⟩
      | .ok sigs =>
        match env.MarshalSignatureJSON sigs with
        | .error e =>
          ⟨[.signTxWithSignerAddress txF multisigAddr fromName txBuilder flags.offline
            flags.overwrite], .ret (some e)⟩
        | .ok json =>
          Run.after [.signTxWithSignerAddress txF multisigAddr fromName txBuilder
            flags.offline flags.overwrite] (outputStep env flags json) := by
  have ht : membershipLoop env fromPubKey pubKeys false = true :=
    (membershipLoop_eq_true_iff env fromPubKey pubKeys false).mpr (Or.inr hmem)
  rw [makeSignCmd_of_setup env flags arg0 txF newTx txBuilder addr fromName hctx hread hwrap
    hfrom,
    signStep_multisig env flags txF fromName txBuilder flags.signatureOnly multisigAddr
      multisigName multisigkey threshold pubKeys fromRecord fromPubKey hms hmsf hrec hpk hkey
      hfpk]
  simp only [ht, if_true, hsign, encodeStep, hamino, marshalSignatureJSON]
  cases hg : env.GetSignaturesV2 signed with
  | error e => simp
  | ok sigs =>
    simp only []
    cases hj : env.MarshalSignatureJSON sigs with
    | error e => simp
    | ok json => simp

/-- C5 as amended, at a concrete input: `sign --from alice --multisig ms
--signature-only=false` prints the signature-only document. -/
theorem sign_multisig_signature_only_witness :
    makeSignCmd (exampleEnv "alice" []) (exampleFlags "alice" "ms" false) "f" =
      ⟨[.signTxWithSignerAddress ⟨0, 0⟩ "addr-ms" "alice" ⟨"f", []⟩ false false,
        .printf "sigs:0"], .ret none⟩ :=
  sign_multisig_signature_only (exampleEnv "alice" []) (exampleFlags "alice" "ms" false) "f"
    ⟨0, 0⟩ ⟨"f", []⟩ ⟨"f", []⟩ ⟨"f", [⟨[5], [0], 0⟩]⟩ "addr-alice" "alice" "addr-ms" "ms"
    ⟨"ms", .ok msPub⟩ 2 [alicePub, carolPub] ⟨"alice", .ok alicePub⟩ alicePub (by decide) rfl
    rfl rfl rfl rfl rfl rfl rfl rfl rfl (by decide) rfl

/-- The signing step of `sign` makes no file operation. -/
theorem signStep_no_file (env : Env) (flags : Flags) (txF : Factory) (fromName : String)
    (txBuilder : Tx) (pso : Bool) :
    ∀ ev ∈ (signStep env flags txF fromName txBuilder pso).1, ev.isFile = false := by
  unfold signStep
  simp only []
  split
  · split
    · simp
    · split
      · simp
      · split
        · simp
        · simp
        · split
          · simp
          · split
            · simp
            · split
              · simp
              · split <;> simp [Event.isFile]
  · split <;> simp [Event.isFile]

/-- C7: in the `sign` command, when the output document file is opened and the
open succeeds, the run ends with the open, one write and one close of that
file, no close happens before; the command returns the write error when the
write fails, whatever the close does, and the result of the close when the
write succeeds. -/
theorem sign_output_file_closed_once (env : Env) (flags : Flags) (arg0 : String)
    (hopen : Event.openFile flags.outputDocument ∈ (makeSignCmd env flags arg0).events)
    (hok : env.OpenFile flags.outputDocument = .ok ()) :
    ∃ (pre : List Event) (json : String),
      (makeSignCmd env flags arg0).events =
          pre ++ [.openFile flags.outputDocument,
            .write flags.outputDocument (json ++ "\n"), .close flags.outputDocument] ∧
        (∀ ev ∈ pre, ev.isFile = false) ∧
        ((makeSignCmd env flags arg0).events.filter Event.isClose).length = 1 ∧
        (∀ e, env.Write flags.outputDocument (json ++ "\n") = some e →
          (makeSignCmd env flags arg0).outcome = .ret (some e)) ∧
        (env.Write flags.outputDocument (json ++ "\n") = none →
          (makeSignCmd env flags arg0).outcome = .ret (env.Close flags.outputDocument)) := by
  unfold makeSignCmd at hopen ⊢
  cases hctx : env.GetClientTxContext with
  | error e => simp [hctx] at hopen
  | ok u =>
    simp only [hctx] at hopen ⊢
    cases hread : env.readTxAndInitContexts arg0 with
    | error e => simp [hread] at hopen
    | ok p =>
      obtain ⟨txF, newTx⟩ := p
      simp only [hread] at hopen ⊢
      cases hwrap : env.WrapTxBuilder newTx with
      | error e => simp [hwrap] at hopen
      | ok txBuilder =>
        simp only [hwrap] at hopen ⊢
        cases hfrom : env.GetFromFields flags.flagFrom with
        | error e => simp [hfrom] at hopen
        | ok q =>
          obtain ⟨addr, fromName⟩ := q
          simp only [hfrom] at hopen ⊢
          have hnf := signStep_no_file env flags txF fromName txBuilder flags.signatureOnly
          rcases hs : signStep env flags txF fromName txBuilder flags.signatureOnly
            with ⟨evs, r⟩
          rw [hs] at hnf hopen
          simp only [] at hnf
          have hnot : Event.openFile flags.outputDocument ∉ evs := fun hmem => by
            have := hnf _ hmem
            simp [Event.isFile] at this
          cases r with
          | error out => exact absurd hopen hnot
          | ok v =>
            obtain ⟨signed, pso⟩ := v
            simp only [] at hopen ⊢
            cases he : encodeStep env flags signed pso with
            | error e => rw [he] at hopen; exact absurd hopen hnot
            | ok json =>
              rw [he] at hopen
              simp only [Run.after, List.mem_append] at hopen ⊢
              have hout : Event.openFile flags.outputDocument ∈
                  (outputStep env flags json).events := hopen.resolve_left hnot
              have hdoc : flags.outputDocument ≠ "" := by
                intro h
                simp [outputStep, h] at hout
              have hclose : evs.filter Event.isClose = [] := by
                rw [List.filter_eq_nil_iff]
                intro ev hev hc
                have := hnf ev hev
                cases ev <;> simp_all [Event.isFile, Event.isClose]
              refine ⟨evs, json, ?_, hnf, ?_, ?_, ?_⟩
              · simp [outputStep, hdoc, hok]
              · simp [outputStep, hdoc, hok, hclose, Event.isClose]
              · intro e hw
                simp [outputStep, hdoc, hok, hw]
              · intro hw
                simp [outputStep, hdoc, hok, hw]

/-- C7 at a concrete input: the write succeeds, the close fails, and the close
error is what the command returns. -/
theorem sign_output_file_closed_once_witness :
    ∃ (pre : List Event) (json : String),
      (makeSignCmd (closeFailsEnv "alice")
          ((exampleFlags "alice" "" true).withOutputDocument "out.json") "f").events =
          pre ++ [.openFile "out.json", .write "out.json" (json ++ "\n"), .close "out.json"] ∧
        (∀ ev ∈ pre, ev.isFile = false) ∧
        ((makeSignCmd (closeFailsEnv "alice")
          ((exampleFlags "alice" "" true).withOutputDocument "out.json") "f").events.filter
            Event.isClose).length = 1 ∧
        (∀ e, (closeFailsEnv "alice").Write "out.json" (json ++ "\n") = some e →
          (makeSignCmd (closeFailsEnv "alice")
            ((exampleFlags "alice" "" true).withOutputDocument "out.json") "f").outcome =
            .ret (some e)) ∧
        ((closeFailsEnv "alice").Write "out.json" (json ++ "\n") = none →
          (makeSignCmd (closeFailsEnv "alice")
            ((exampleFlags "alice" "" true).withOutputDocument "out.json") "f").outcome =
            .ret (some "close failed")) :=
  sign_output_file_closed_once (closeFailsEnv "alice")
    ((exampleFlags "alice" "" true).withOutputDocument "out.json") "f" (by decide) rfl

/-! ## Claims on the starting account number and sequence -/

/-- The signing step of a batch iteration reads only `--from` and `--offline`. -/
theorem signBatchStep_congr (env : Env) (f1 f2 : Flags) (ms : String) (fac : Factory)
    (b : Tx) (hfrom : f1.flagFrom = f2.flagFrom) (hoff : f1.offline = f2.offline) :
    signBatchStep env f1 ms fac b = signBatchStep env f2 ms fac b := by
  unfold signBatchStep
  rw [hfrom, hoff]

/-- The batch loop reads only `--from` and `--offline` of the command line. -/
theorem batchRun_congr (env : Env) (f1 f2 : Flags) (ms : String) (pso : Bool)
    (hfrom : f1.flagFrom = f2.flagFrom) (hoff : f1.offline = f2.offline)
    (lines : List String) :
    ∀ (fac : Factory) (seq : Nat),
      batchRun env f1 ms pso fac seq lines = batchRun env f2 ms pso fac seq lines := by
  induction lines with
  | nil => intro fac seq; rfl
  | cons l rest ih =>
    intro fac seq
    simp only [batchRun, signBatchStep_congr env f1 f2 ms _ _ hfrom hoff, ih]

/-- C8: in `sign-batch` running online, two command lines that differ only in
`--account-number` and `--sequence` resolve the same starting factory and give
the same run (same calls, same records, same result); with no multisig target
the starting pair is the one returned by the account lookup for the address of
the `--from` key. -/
theorem signBatch_online_ignores_supplied (env : Env) (flags : Flags) (arg0 : String)
    (a1 s1 a2 s2 : Option Nat) (honline : flags.offline = false) :
    resolveAccount env (flags.withAccount a1 s1) flags.multisig
          (NewFactoryCLI (flags.withAccount a1 s1)) =
        resolveAccount env (flags.withAccount a2 s2) flags.multisig
          (NewFactoryCLI (flags.withAccount a2 s2)) ∧
      makeSignBatchCmd env (flags.withAccount a1 s1) arg0 =
        makeSignBatchCmd env (flags.withAccount a2 s2) arg0 ∧
      (flags.multisig = "" →
        ∀ (evs : List Event) (txFactory : Factory),
          resolveAccount env (flags.withAccount a1 s1) flags.multisig
            (NewFactoryCLI (flags.withAccount a1 s1)) = (evs, .ok txFactory) →
          ∃ addr name, env.GetFromFields flags.flagFrom = .ok (addr, name) ∧
            env.GetAccount addr = .ok (txFactory.AccountNumber, txFactory.Sequence)) := by
  have hres : resolveAccount env (flags.withAccount a1 s1) flags.multisig
        (NewFactoryCLI (flags.withAccount a1 s1)) =
      resolveAccount env (flags.withAccount a2 s2) flags.multisig
        (NewFactoryCLI (flags.withAccount a2 s2)) := by
    unfold resolveAccount
    simp only [Flags.withAccount, honline, Bool.not_false, if_true]
    rfl
  refine ⟨hres, ?_, ?_⟩
  · rw [makeSignBatchCmd_eq, makeSignBatchCmd_eq]
    have hm : (flags.withAccount a1 s1).multisig = flags.multisig := rfl
    have hm2 : (flags.withAccount a2 s2).multisig = flags.multisig := rfl
    have hso : setOutputFile env (flags.withAccount a1 s1) =
        setOutputFile env (flags.withAccount a2 s2) := rfl
    have hsig : (flags.withAccount a1 s1).signatureOnly =
        (flags.withAccount a2 s2).signatureOnly := rfl
    rw [hm, hm2, hres, hso, hsig]
    simp only [batchRun_congr env (flags.withAccount a1 s1) (flags.withAccount a2 s2)
      flags.multisig _ rfl rfl]
  · intro hms evs txFactory h
    unfold resolveAccount at h
    simp only [Flags.withAccount, honline, Bool.not_false, if_true, hms] at h
    cases hf : env.GetFromFields flags.flagFrom with
    | error e => simp [hf] at h
    | ok p =>
      obtain ⟨addr, name⟩ := p
      simp only [hf] at h
      cases ha : env.GetAccount addr with
      | error e => simp [ha] at h
      | ok q =>
        obtain ⟨accnum, seq⟩ := q
        simp only [ha, Prod.mk.injEq, Except.ok.injEq] at h
        refine ⟨addr, name, rfl, ?_⟩
        rw [← h.2, ha]
        rfl

/-- C8 at a concrete input: online, `--account-number 7 --sequence 5` against
no flags at all. -/
theorem signBatch_online_ignores_supplied_witness :
    makeSignBatchCmd (exampleEnv "alice" ["a"])
        ((exampleFlags "alice" "" true).withAccount (some 7) (some 5)) "-" =
      makeSignBatchCmd (exampleEnv "alice" ["a"])
        ((exampleFlags "alice" "" true).withAccount none none) "-" :=
  (signBatch_online_ignores_supplied (exampleEnv "alice" ["a"]) (exampleFlags "alice" "" true)
    "-" (some 7) (some 5) none none rfl).2.1

/-- C9, counterexample to the claim as stated: online with a multisig target and
`--account-number 7 --sequence 5` supplied, the loop starts from account number
0 and sequence 0; and offline with a multisig target, `preSignCmd` marks
`--account-number` and `--sequence` required. -/
theorem signBatch_multisig_start_counterexample :
    resolveAccount (exampleEnv "alice" [])
        ((exampleFlags "alice" "ms" true).withAccount (some 7) (some 5)) "ms"
        (NewFactoryCLI ((exampleFlags "alice" "ms" true).withAccount (some 7) (some 5))) =
        ([], .ok ⟨0, 0⟩) ∧
      preSignCmd ((exampleFlags "alice" "ms" true).withOffline true) =
        ["account-number", "sequence"] := by
  exact ⟨rfl, rfl⟩

/-- C9 as amended: in `sign-batch` with a multisig target, offline the loop
starts from the caller supplied account number and sequence (0 for a flag that
is not given), online it starts from account number 0 and sequence 0 whatever
the caller supplies; offline, `preSignCmd` marks `--account-number` and
`--sequence` required also when a multisig target is set. -/
theorem signBatch_multisig_start (env : Env) (flags : Flags) (hms : flags.multisig ≠ "") :
    (flags.offline = true →
        resolveAccount env flags flags.multisig (NewFactoryCLI flags) =
          ([], .ok ⟨flags.accountNumber.getD 0, flags.sequence.getD 0⟩)) ∧
      (flags.offline = false →
        resolveAccount env flags flags.multisig (NewFactoryCLI flags) =
          ([], .ok ⟨0, 0⟩)) ∧
      (flags.offline = true → preSignCmd flags = ["account-number", "sequence"]) := by
  refine ⟨?_, ?_, ?_⟩
  · intro h
    simp [resolveAccount, h, NewFactoryCLI]
  · intro h
    simp [resolveAccount, h, hms, Factory.WithAccountNumber, Factory.WithSequence]
  · intro h
    simp [preSignCmd, h]

/-- C9 as amended, at a concrete input: offline with a multisig target and
`--account-number 7 --sequence 5`, the loop starts from 7 and 5. -/
theorem signBatch_multisig_start_witness :
    resolveAccount (exampleEnv "alice" [])
        (((exampleFlags "alice" "ms" true).withAccount (some 7) (some 5)).withOffline true) "ms"
        (NewFactoryCLI
          (((exampleFlags "alice" "ms" true).withAccount (some 7) (some 5)).withOffline true)) =
      ([], .ok ⟨7, 5⟩) :=
  (signBatch_multisig_start (exampleEnv "alice" [])
    (((exampleFlags "alice" "ms" true).withAccount (some 7) (some 5)).withOffline true)
    (by decide)).1 rfl

end TxSign
